import Mathlib

/-!
Verification of the DS1977 iButton (1-Wire) stacked protocol decoder
(`pd.py`).  The decoder consumes RESET/PRESENCE, ROM and DATA events and
emits time-spanned semantic field records.  We embed the mutable decoder
object as an explicit state record and the `decode` method as a state
transformer returning `Option` (`none` models a Python runtime fault:
reading an attribute that was never assigned, or an out-of-range index).
-/

namespace DS1977

/-- Digit list of `n` in base 16, most significant first, lowercase —
Python hex formatting (format spec x) without padding. -/
def hexChars (n : Nat) : List Char := Nat.toDigits 16 n

/-- Python zero-padded hex formatting: lowercase hex, zero-padded to width `w`
(never truncating). -/
def hexPad (w n : Nat) : String :=
  String.mk (List.replicate (w - (hexChars n).length) '0' ++ hexChars n)

/-- Python space-joined two-digit hex of each byte in `l`. -/
def hexJoin (l : List Nat) : String :=
  String.intercalate " " (l.map (hexPad 2))

/-- Python comma-joined hex of each byte in `l` under format spec #04x,
which pads the digits to width 2 after the 0x mark. -/
def hexJoin0x (l : List Nat) : String :=
  String.intercalate ", " (l.map (fun b => "0x" ++ hexPad 2 b))

/-- The `commands_1977` dictionary of FUNCTION commands and their names,
in source order. -/
def commands_1977 : List (Nat × List String) :=
  [(0x0f, ["Write Scratchpad", "WR Sc"]),
   (0xaa, ["Read Scratchpad", "RD Sc"]),
   (0x99, ["Copy Scratchpad with Password", "WR Mem"]),
   (0x69, ["Read Memory with Password", "RD Mem"]),
   (0xc3, ["Verify Password", "Verify Pwd"]),
   (0xcc, ["Read Version Command", "RD Ver"])]

/-- Dictionary lookup `commands_1977[v]`; `none` models `v not in commands`. -/
def lookupCmd (v : Nat) : Option (List String) :=
  (commands_1977.find? (fun p => p.1 == v)).map (·.2)

/-- Index constants from `range(12)` in the source. -/
def ann_data : Nat := 0
def ann_reset : Nat := 1
def ann_rom : Nat := 2
def ann_cmd : Nat := 3
def ann_pwd : Nat := 4
def ann_addr : Nat := 5
def ann_end : Nat := 6
def ann_stat : Nat := 7
def ann_crc : Nat := 8
def ann_succ : Nat := 9
def ann_fail : Nat := 10
def ann_err : Nat := 11

/-- The `Decoder.annotations` tuple: (id, description) per class index. -/
def annSpec : List (String × String) :=
  [("data", "Data"), ("reset", "Reset/Presence"), ("rom", "ROM"),
   ("cmd", "Command"), ("pwd", "Password"), ("addr", "Address"),
   ("ending", "Ending Offset"), ("status", "Data Status"), ("crc", "CRC"),
   ("succ", "Success"), ("fail", "Fail"), ("err", "Error")]

/-- The `Decoder.annotations_row` tuple: (id, description, class indices).
In the source the third element of the second row is the bare int
`ann_err` (no tuple comma); we model the intended singleton collection. -/
def annRows : List (String × String × List Nat) :=
  [("bits", "Bits",
    [ann_data, ann_reset, ann_rom, ann_cmd, ann_pwd, ann_addr, ann_crc,
     ann_succ, ann_fail]),
   ("err", "Error", [ann_err])]

/-- Mutable fields of the `Decoder` object that the decode path touches.
`ss`/`es` are `Option` because Python leaves them unset until first
assigned; reading them before assignment is a fault. -/
structure DState where
  bytes : List Nat
  family_code : Option Nat
  ss : Option Nat
  es : Option Nat
deriving Repr, DecidableEq

/-- State after `reset()` (`__init__`): empty byte history, no family code,
`ss`/`es` attributes not yet assigned. -/
def initState : DState :=
  { bytes := [], family_code := none, ss := none, es := none }

/-- `self.family`, fixed by `reset()`. -/
def family : String := "DS1977"

/-- One record handed to `put`: interval, class index, text variants. -/
structure Put where
  ss : Nat
  es : Nat
  cls : Nat
  texts : List String
deriving Repr, DecidableEq

/-- `putx`: emit on the interval currently held in `self.ss`/`self.es`;
faults if either was never assigned. -/
def putx (st : DState) (cls : Nat) (texts : List String) : Option Put :=
  match st.ss, st.es with
  | some a, some b => some { ss := a, es := b, cls := cls, texts := texts }
  | _, _ => none

/-- Event payloads delivered by the onewire_network decoder. -/
inductive Ev where
  | reset (val : Bool)
  | rom (val : Nat)
  | data (val : Nat)
deriving Repr, DecidableEq

/-- Write Scratchpad (`0x0f`) branch of `decode`, entered with the byte
just appended (`bs = self.bytes`, `n = len(self.bytes) ≥ 2`). -/
def decodeWS (ss es : Nat) (st : DState) (bs : List Nat) (n : Nat) :
    Option (DState × List Put) := do
  let (st, outs) ←
    if n = 2 then pure ({ st with ss := some ss }, ([] : List Put))
    else if n = 3 then do
      let st := { st with es := some es }
      let b1 ← bs.get? 1
      let b2 ← bs.get? 2
      let a ← putx st ann_addr
        ["Target address: 0x" ++ hexPad 4 ((b2 <<< 8) + b1)]
      pure (st, [a])
    else if n = 4 then pure ({ st with ss := some ss }, ([] : List Put))
    else pure (st, ([] : List Put))
  if 4 ≤ n then do
    let st := { st with es := some es }
    let a ← putx st ann_data
      ["Data(" ++ toString (n - 3) ++ "): " ++ hexJoin (bs.drop 3)]
    pure (st, outs ++ [a])
  else pure (st, outs)

/-- Read Scratchpad (`0xaa`) branch of `decode`.  At `n = 4` the status
byte interval is split at `tmp = ss + int((es-ss)/4)*3`; for `ss ≤ es`
the float division plus `int` truncation of Python is floor division. -/
def decodeRS (ss es : Nat) (st : DState) (bs : List Nat) (n : Nat) :
    Option (DState × List Put) := do
  let (st, outs) ←
    if n = 2 then pure ({ st with ss := some ss }, ([] : List Put))
    else if n = 3 then do
      let st := { st with es := some es }
      let b1 ← bs.get? 1
      let b2 ← bs.get? 2
      let a ← putx st ann_addr
        ["Target address: 0x" ++ hexPad 4 ((b2 <<< 8) + b1)]
      pure (st, [a])
    else if n = 4 then do
      let tmp := ss + (es - ss) / 4 * 3
      let st := { st with ss := some ss, es := some tmp }
      let b3 ← bs.get? 3
      let a1 ← putx st ann_end ["Ending Offset: " ++ toString (b3 &&& 0x3f)]
      let st := { st with ss := some tmp, es := some es }
      let a2 ← putx st ann_stat
        ["Data status: " ++ (if b3 &&& 0xc0 = 0 then "OK" else "Err")]
      pure (st, [a1, a2])
    else if n = 5 then pure ({ st with ss := some ss }, ([] : List Put))
    else pure (st, ([] : List Put))
  if 5 ≤ n then do
    let st := { st with es := some es }
    -- the source passes the literal class index 0 here
    let a ← putx st 0
      ["Data(" ++ toString (n - 4) ++ "): " ++ hexJoin (bs.drop 4)]
    pure (st, outs ++ [a])
  else pure (st, outs)

/-- Copy Scratchpad with Password (`0x99`) branch of `decode`. -/
def decodeCP (ss es : Nat) (st : DState) (bs : List Nat) (n : Nat) :
    Option (DState × List Put) :=
  if n = 2 then pure ({ st with ss := some ss }, ([] : List Put))
  else if n = 4 then do
    let st := { st with es := some es }
    -- the source passes the literal class index 0 here
    let a ← putx st 0
      ["Authorization pattern (TA1, TA2, E/S): " ++
        hexJoin0x ((bs.drop 1).take 3)]
    pure (st, [a])
  else if n = 5 then pure ({ st with ss := some ss }, ([] : List Put))
  else if n = 12 then do
    let st := { st with es := some es }
    let a ← putx st ann_pwd ["Full Access Password: " ++ hexJoin (bs.drop 4)]
    pure (st, [a])
  else if n = 13 then do
    let st := { st with ss := some ss, es := some es }
    let last ← bs.getLast?
    let a ←
      if last = 0xaa ∨ last = 0x55 then
        putx st ann_succ ["Operation Succeeded", "Success", "S"]
      else
        putx st ann_fail ["Operation Failed", "Failed", "F"]
    pure (st, [a])
  else pure (st, ([] : List Put))

/-- Read Memory with Password (`0x69`) branch of `decode`. -/
def decodeRM (ss es : Nat) (st : DState) (bs : List Nat) (n : Nat) :
    Option (DState × List Put) := do
  let (st, outs) ←
    if n = 2 then pure ({ st with ss := some ss }, ([] : List Put))
    else if n = 3 then do
      let st := { st with es := some es }
      let b1 ← bs.get? 1
      let b2 ← bs.get? 2
      let a ← putx st ann_addr
        ["Target address: 0x" ++ hexPad 4 ((b2 <<< 8) + b1)]
      pure (st, [a])
    else if n = 4 then pure ({ st with ss := some ss }, ([] : List Put))
    else if n = 11 then do
      let st := { st with es := some es }
      let a ← putx st ann_pwd
        ["Read Access Password: " ++ hexJoin (bs.drop 3)]
      pure (st, [a])
    else if n = 12 then pure ({ st with ss := some ss }, ([] : List Put))
    else pure (st, ([] : List Put))
  if 12 ≤ n then do
    let st := { st with es := some es }
    let a ← putx st ann_data
      ["Data(" ++ toString (n - 11) ++ "): " ++ hexJoin (bs.drop 11)]
    pure (st, outs ++ [a])
  else pure (st, outs)

/-- `Decoder.decode(self, ss, es, (code, val))`: one event, returning the
updated state and the records emitted for this event, in order. -/
def decode (ss es : Nat) (ev : Ev) (st : DState) : Option (DState × List Put) :=
  match ev with
  | .reset val =>
    let st := { st with ss := some ss, es := some es }
    (putx st ann_reset
      ["Reset/Presence: " ++ (if val then "true" else "false")]).map
      (fun a => ({ st with bytes := [] }, [a]))
  | .rom val =>
    let fc := val &&& 0xff
    let st := { st with ss := some ss, es := some es, family_code := some fc }
    let s :=
      if fc = 0x37 then "is 0x" ++ hexPad 2 fc ++ ", " ++ family ++ " detected"
      else "0x" ++ hexPad 2 fc ++ " unknown"
    (putx st ann_rom
      ["ROM: 0x" ++ hexPad 16 val ++ " (" ++ ("family code " ++ s) ++ ")",
       "ROM: 0x" ++ hexPad 16 val ++ " (" ++ family ++ ")",
       "ROM: 0x" ++ hexPad 16 val]).map
      (fun a => ({ st with bytes := [] }, [a]))
  | .data val =>
    let bs := st.bytes ++ [val]
    let st := { st with bytes := bs }
    let n := bs.length
    if n = 1 then
      let st := { st with ss := some ss, es := some es }
      match lookupCmd val with
      | none =>
        (putx st ann_err ["Unrecognized command: 0x" ++ hexPad 2 val]).map
          (fun a => (st, [a]))
      | some names => (putx st ann_cmd names).map (fun a => (st, [a]))
    else
      match bs.head? with
      | none => none
      | some b0 =>
        if b0 = 0x0f then decodeWS ss es st bs n
        else if b0 = 0xaa then decodeRS ss es st bs n
        else if b0 = 0x99 then decodeCP ss es st bs n
        else if b0 = 0x69 then decodeRM ss es st bs n
        else some (st, ([] : List Put))

/-- Run a list of `(ss, es, event)` triples, concatenating all emissions. -/
def decodeAll (st : DState) : List (Nat × Nat × Ev) → Option (DState × List Put)
  | [] => some (st, [])
  | (ss, es, ev) :: rest => do
    let (st1, o1) ← decode ss es ev st
    let (st2, o2) ← decodeAll st1 rest
    pure (st2, o1 ++ o2)

/-- Run a list of DATA events, keeping the emissions of each event separate. -/
def runData (st : DState) :
    List (Nat × Nat × Nat) → Option (DState × List (List Put))
  | [] => some (st, [])
  | (ss, es, v) :: rest => do
    let (st1, o) ← decode ss es (.data v) st
    let (st2, os) ← runData st1 rest
    pure (st2, o :: os)

/-- Expected per-event emissions of the Write Scratchpad payload phase:
once `acc` payload bytes have arrived (the running `bytes[3:]`), each
further DATA event re-emits the whole payload, spanning from the start
`s4` of the 4th event to the end of the current event. -/
def wsExpect (s4 : Nat) (acc : List Nat) :
    List (Nat × Nat × Nat) → List (List Put)
  | [] => []
  | (_, es, v) :: rest =>
    [{ ss := s4, es := es, cls := ann_data,
       texts := ["Data(" ++ toString (acc.length + 1) ++ "): " ++
         hexJoin (acc ++ [v])] }] :: wsExpect s4 (acc ++ [v]) rest

/-- Well-formed event triple per the upstream contract: `end ≥ start`,
ROM payloads are 64-bit, DATA payloads are 8-bit. -/
def wfTriple : Nat × Nat × Ev → Prop
  | (ss, es, ev) =>
    ss ≤ es ∧
      (match ev with
        | .reset _ => True
        | .rom v => v < 2 ^ 64
        | .data v => v < 256)

/-! ## Helper lemmas -/

theorem getLast?_cons_concat (a v : Nat) (l : List Nat) :
    (a :: (l ++ [v])).getLast? = some v := by
  rw [show (a :: (l ++ [v])) = (a :: l) ++ [v] by simp, List.getLast?_concat]

theorem get2_exists (bs : List Nat) (h : 3 ≤ bs.length) :
    ∃ b1 b2, bs[1]? = some b1 ∧ bs[2]? = some b2 := by
  cases h1 : bs[1]? with
  | none => rw [List.getElem?_eq_none_iff] at h1; omega
  | some b1 =>
    cases h2 : bs[2]? with
    | none => rw [List.getElem?_eq_none_iff] at h2; omega
    | some b2 => exact ⟨b1, b2, rfl, rfl⟩

/-- One Write Scratchpad payload step at byte count `n ≥ 5`: the data
record spans from the stored `ss` (set when the 4th byte arrived) to the
end of the current event. -/
theorem decode_ws_run (ss es v : Nat) (st : DState) (b1 b2 a : Nat)
    (acc' : List Nat) (s4 : Nat)
    (hb : st.bytes = [0x0f, b1, b2] ++ (a :: acc')) (hss : st.ss = some s4) :
    decode ss es (.data v) st =
      some ({ st with bytes := [0x0f, b1, b2] ++ ((a :: acc') ++ [v]),
                      es := some es },
        [{ ss := s4, es := es, cls := ann_data,
           texts := ["Data(" ++ toString ((a :: acc').length + 1) ++ "): " ++
             hexJoin ((a :: acc') ++ [v])] }]) := by
  simp [decode, hb, decodeWS, putx, hss, ann_data]

/-- Inductive run of the Write Scratchpad payload phase from byte count
five onwards. -/
theorem wsRunLemma (s4 b1 b2 : Nat) :
    ∀ (L : List (Nat × Nat × Nat)) (a : Nat) (acc' : List Nat) (st : DState),
      st.bytes = [0x0f, b1, b2] ++ (a :: acc') → st.ss = some s4 →
      ∃ stf, runData st L = some (stf, wsExpect s4 (a :: acc') L) := by
  intro L
  induction L with
  | nil => intro a acc' st _ _; exact ⟨st, rfl⟩
  | cons e rest ih =>
    obtain ⟨ss, es, v⟩ := e
    intro a acc' st hb hss
    have hstep := decode_ws_run ss es v st b1 b2 a acc' s4 hb hss
    obtain ⟨stf, hrest⟩ := ih a (acc' ++ [v])
      { st with bytes := [0x0f, b1, b2] ++ ((a :: acc') ++ [v]), es := some es }
      (by simp) (by simpa using hss)
    have hrest' : runData
        { st with bytes := [0x0f, b1, b2] ++ ((a :: acc') ++ [v]),
                  es := some es }
        rest = some (stf, wsExpect s4 ((a :: acc') ++ [v]) rest) := by
      simpa using hrest
    refine ⟨stf, ?_⟩
    simp only [runData, hstep, hrest', wsExpect, Option.bind_eq_bind,
      Option.some_bind, pure]

theorem decodeWS_total (ss es : Nat) (st : DState) (bs : List Nat) (n : Nat)
    (hn : n = bs.length) (hss : st.ss.isSome) :
    ∃ r, decodeWS ss es st bs n = some r ∧ r.1.ss.isSome := by
  obtain ⟨s0, hs0⟩ := Option.isSome_iff_exists.mp hss
  by_cases h2 : n = 2
  · simp [decodeWS, h2]
  · by_cases h3 : n = 3
    · obtain ⟨b1, b2, hb1, hb2⟩ := get2_exists bs (by omega)
      simp [decodeWS, h2, h3, hb1, hb2, putx, hs0]
    · by_cases h4 : n = 4
      · simp [decodeWS, h2, h3, h4, putx]
      · by_cases h5 : 4 ≤ n
        · simp [decodeWS, h2, h3, h4, h5, putx, hs0]
        · simp [decodeWS, h2, h3, h4, h5, hs0]

theorem decodeRS_total (ss es : Nat) (st : DState) (bs : List Nat) (n : Nat)
    (hn : n = bs.length) (hss : st.ss.isSome) :
    ∃ r, decodeRS ss es st bs n = some r ∧ r.1.ss.isSome := by
  obtain ⟨s0, hs0⟩ := Option.isSome_iff_exists.mp hss
  by_cases h2 : n = 2
  · simp [decodeRS, h2]
  · by_cases h3 : n = 3
    · obtain ⟨b1, b2, hb1, hb2⟩ := get2_exists bs (by omega)
      simp [decodeRS, h2, h3, hb1, hb2, putx, hs0]
    · by_cases h4 : n = 4
      · obtain ⟨b3, hb3⟩ : ∃ b3, bs[3]? = some b3 := by
          cases h3' : bs[3]? with
          | none => rw [List.getElem?_eq_none_iff] at h3'; omega
          | some b3 => exact ⟨b3, rfl⟩
        simp [decodeRS, h2, h3, h4, hb3, putx]
      · by_cases h5 : n = 5
        · simp [decodeRS, h2, h3, h4, h5, putx]
        · by_cases h5' : 5 ≤ n
          · simp [decodeRS, h2, h3, h4, h5, h5', putx, hs0]
          · simp [decodeRS, h2, h3, h4, h5, h5', hs0]

theorem decodeCP_total (ss es : Nat) (st : DState) (bs : List Nat) (n : Nat)
    (hn : n = bs.length) (hss : st.ss.isSome) :
    ∃ r, decodeCP ss es st bs n = some r ∧ r.1.ss.isSome := by
  obtain ⟨s0, hs0⟩ := Option.isSome_iff_exists.mp hss
  by_cases h2 : n = 2
  · simp [decodeCP, h2]
  · by_cases h4 : n = 4
    · simp [decodeCP, h2, h4, putx, hs0]
    · by_cases h5 : n = 5
      · simp [decodeCP, h2, h4, h5]
      · by_cases h12 : n = 12
        · simp [decodeCP, h2, h4, h5, h12, putx, hs0]
        · by_cases h13 : n = 13
          · obtain ⟨bl, hbl⟩ : ∃ bl, bs.getLast? = some bl := by
              cases hg : bs.getLast? with
              | none =>
                rw [List.getLast?_eq_none_iff] at hg
                subst hg; simp at hn; omega
              | some bl => exact ⟨bl, rfl⟩
            by_cases hok : bl = 0xaa ∨ bl = 0x55
            · simp [decodeCP, h2, h4, h5, h12, h13, hbl, hok, putx]
            · simp [decodeCP, h2, h4, h5, h12, h13, hbl, hok, putx]
          · simp [decodeCP, h2, h4, h5, h12, h13, hs0]

theorem decodeRM_total (ss es : Nat) (st : DState) (bs : List Nat) (n : Nat)
    (hn : n = bs.length) (hss : st.ss.isSome) :
    ∃ r, decodeRM ss es st bs n = some r ∧ r.1.ss.isSome := by
  obtain ⟨s0, hs0⟩ := Option.isSome_iff_exists.mp hss
  by_cases h2 : n = 2
  · simp [decodeRM, h2]
  · by_cases h3 : n = 3
    · obtain ⟨b1, b2, hb1, hb2⟩ := get2_exists bs (by omega)
      simp [decodeRM, h2, h3, hb1, hb2, putx, hs0]
    · by_cases h4 : n = 4
      · simp [decodeRM, h2, h3, h4, putx]
      · by_cases h11 : n = 11
        · simp [decodeRM, h2, h3, h4, h11, putx, hs0]
        · by_cases h12 : n = 12
          · simp [decodeRM, h2, h3, h4, h11, h12, putx]
          · by_cases h12' : 12 ≤ n
            · simp [decodeRM, h2, h3, h4, h11, h12, h12', putx, hs0]
            · simp [decodeRM, h2, h3, h4, h11, h12, h12', hs0]

/-- Any single event preserves the invariant that a nonempty byte history
implies `ss` was assigned, and never faults under it. -/
theorem decode_total (ss es : Nat) (ev : Ev) (st : DState)
    (hinv : st.bytes = [] ∨ st.ss.isSome) :
    ∃ r, decode ss es ev st = some r ∧ (r.1.bytes = [] ∨ r.1.ss.isSome) := by
  cases ev with
  | reset val => simp [decode, putx]
  | rom val => simp [decode, putx]
  | data val =>
    cases hbs : st.bytes with
    | nil =>
      cases hl : lookupCmd val <;> simp [decode, hbs, hl, putx]
    | cons b0 rest =>
      have hss : st.ss.isSome := by
        rcases hinv with h | h
        · rw [hbs] at h; cases h
        · exact h
      by_cases h0f : b0 = 0x0f
      · obtain ⟨r, hr, hrss⟩ := decodeWS_total ss es
          { st with bytes := b0 :: (rest ++ [val]) }
          (b0 :: (rest ++ [val])) (b0 :: (rest ++ [val])).length rfl
          (by simpa using hss)
        refine ⟨r, ?_, Or.inr hrss⟩
        simp only [decode, hbs]
        simp only [List.cons_append] at *
        rw [if_neg (by simp)]
        simpa [h0f] using hr
      · by_cases haa : b0 = 0xaa
        · obtain ⟨r, hr, hrss⟩ := decodeRS_total ss es
            { st with bytes := b0 :: (rest ++ [val]) }
            (b0 :: (rest ++ [val])) (b0 :: (rest ++ [val])).length rfl
            (by simpa using hss)
          refine ⟨r, ?_, Or.inr hrss⟩
          simp only [decode, hbs]
          simp only [List.cons_append] at *
          rw [if_neg (by simp)]
          simpa [h0f, haa] using hr
        · by_cases h99 : b0 = 0x99
          · obtain ⟨r, hr, hrss⟩ := decodeCP_total ss es
              { st with bytes := b0 :: (rest ++ [val]) }
              (b0 :: (rest ++ [val])) (b0 :: (rest ++ [val])).length rfl
              (by simpa using hss)
            refine ⟨r, ?_, Or.inr hrss⟩
            simp only [decode, hbs]
            simp only [List.cons_append] at *
            rw [if_neg (by simp)]
            simpa [h0f, haa, h99] using hr
          · by_cases h69 : b0 = 0x69
            · obtain ⟨r, hr, hrss⟩ := decodeRM_total ss es
                { st with bytes := b0 :: (rest ++ [val]) }
                (b0 :: (rest ++ [val])) (b0 :: (rest ++ [val])).length rfl
                (by simpa using hss)
              refine ⟨r, ?_, Or.inr hrss⟩
              simp only [decode, hbs]
              simp only [List.cons_append] at *
              rw [if_neg (by simp)]
              simpa [h0f, haa, h99, h69] using hr
            · refine ⟨({ st with bytes := b0 :: (rest ++ [val]) }, []), ?_, ?_⟩
              · simp only [decode, hbs]
                simp only [List.cons_append]
                rw [if_neg (by simp)]
                simp [h0f, haa, h99, h69]
              · exact Or.inr (by simpa using hss)

theorem decodeAll_total :
    ∀ (L : List (Nat × Nat × Ev)) (st : DState),
      (st.bytes = [] ∨ st.ss.isSome) → (decodeAll st L).isSome := by
  intro L
  induction L with
  | nil => intro st _; simp [decodeAll]
  | cons e rest ih =>
    obtain ⟨ss, es, ev⟩ := e
    intro st hinv
    obtain ⟨r, hr, hrinv⟩ := decode_total ss es ev st hinv
    have h2 := ih r.1 hrinv
    obtain ⟨r2, hr2⟩ := Option.isSome_iff_exists.mp h2
    simp [decodeAll, hr, hr2]


/-! ## Claim theorems -/

/-- C1 (amended): for Read Scratchpad (opcode `0xaa`), the 4th DATA byte
with event interval `(ss, es)`, `ss ≤ es`, yields exactly two records:
`ending` with value `bytes[3] &&& 0x3f` on `(ss, split)` and then
`status` with text OK when `bytes[3] &&& 0xc0 = 0` and Err otherwise on
`(split, es)`, where `split = ss + (es - ss) / 4 * 3`.  (The particular
instance claimed for byte `0x45` has status Err, not OK, since
`0x45 &&& 0xc0 = 0x40 ≠ 0`; see the counterexample.) -/
theorem read_scratchpad_byte4_split (st : DState) (b1 b2 b ss es : Nat)
    (hb : st.bytes = [0xaa, b1, b2]) (_hle : ss ≤ es) :
    decode ss es (.data b) st =
      some ({ st with bytes := [0xaa, b1, b2, b],
                      ss := some (ss + (es - ss) / 4 * 3), es := some es },
        [{ ss := ss, es := ss + (es - ss) / 4 * 3, cls := ann_end,
           texts := ["Ending Offset: " ++ toString (b &&& 0x3f)] },
         { ss := ss + (es - ss) / 4 * 3, es := es, cls := ann_stat,
           texts := ["Data status: " ++
             (if b &&& 0xc0 = 0 then "OK" else "Err")] }]) := by
  simp [decode, hb, decodeRS, putx, ann_end, ann_stat]

/-- C1 witness: concrete instance of the amended claim, byte `0x05` at
interval `(1000, 1100)`: split `1075`, ending offset `5`, status OK. -/
theorem read_scratchpad_byte4_split_witness :
    decode 1000 1100 (.data 0x05) ⟨[0xaa, 0, 0], none, none, none⟩ =
      some (⟨[0xaa, 0, 0, 0x05], none, some 1075, some 1100⟩,
        [{ ss := 1000, es := 1075, cls := ann_end,
           texts := ["Ending Offset: 5"] },
         { ss := 1075, es := 1100, cls := ann_stat,
           texts := ["Data status: OK"] }]) := by
  have h := read_scratchpad_byte4_split ⟨[0xaa, 0, 0], none, none, none⟩
    0 0 0x05 1000 1100 rfl (by norm_num)
  simpa using h

/-- C1 counterexample: the claimed instance — byte `0x45` with interval
`(1000, 1100)` — actually yields status text Err, because
`0x45 &&& 0xc0 = 0x40`, not `0` as the claim asserts. -/
theorem read_scratchpad_byte4_example_status :
    (decodeAll initState
        [(0, 10, .data 0xaa), (10, 20, .data 0), (20, 30, .data 0),
         (1000, 1100, .data 0x45)]).map (fun r => r.2) =
      some
        [{ ss := 0, es := 10, cls := ann_cmd,
           texts := ["Read Scratchpad", "RD Sc"] },
         { ss := 10, es := 30, cls := ann_addr,
           texts := ["Target address: 0x0000"] },
         { ss := 1000, es := 1075, cls := ann_end,
           texts := ["Ending Offset: 5"] },
         { ss := 1075, es := 1100, cls := ann_stat,
           texts := ["Data status: Err"] }] ∧
    0x45 &&& 0xc0 = 0x40 := ⟨rfl, rfl⟩

/-- C2: a RESET/PRESENCE or ROM event always clears the byte history,
whatever had accumulated, and a DATA byte right after it starts a fresh
transaction with byte count 1. -/
theorem boundary_clears_bytes (st : DState) (ss es ss2 es2 : Nat)
    (bval : Bool) (rv v : Nat) :
    ((decode ss es (.reset bval) st).map (fun r => r.1.bytes) = some [] ∧
     ((decode ss es (.reset bval) st).bind
        (fun r => decode ss2 es2 (.data v) r.1)).map (fun r => r.1.bytes) =
       some [v]) ∧
    ((decode ss es (.rom rv) st).map (fun r => r.1.bytes) = some [] ∧
     ((decode ss es (.rom rv) st).bind
        (fun r => decode ss2 es2 (.data v) r.1)).map (fun r => r.1.bytes) =
       some [v]) := by
  refine ⟨⟨?_, ?_⟩, ?_, ?_⟩ <;>
    cases hl : lookupCmd v <;>
    simp [decode, putx, hl]

/-- C3: the first DATA byte of a transaction is the opcode: an unknown
opcode emits exactly one `err` record (no `cmd` record), a known opcode
emits exactly one `cmd` record with the two table names; and when the
transaction opcode is none of `0x0f`, `0xaa`, `0x99`, `0x69`, each later
DATA byte accumulates and emits nothing. -/
theorem first_byte_opcode_dispatch :
    (∀ (st : DState) (v ss es : Nat), st.bytes = [] → lookupCmd v = none →
      decode ss es (.data v) st =
        some ({ st with bytes := [v], ss := some ss, es := some es },
          [{ ss := ss, es := es, cls := ann_err,
             texts := ["Unrecognized command: 0x" ++ hexPad 2 v] }])) ∧
    (∀ (st : DState) (v ss es : Nat) (names : List String), st.bytes = [] →
      lookupCmd v = some names →
      decode ss es (.data v) st =
        some ({ st with bytes := [v], ss := some ss, es := some es },
          [{ ss := ss, es := es, cls := ann_cmd, texts := names }])) ∧
    (∀ (st : DState) (v ss es b0 : Nat) (rest : List Nat),
      st.bytes = b0 :: rest →
      b0 ≠ 0x0f → b0 ≠ 0xaa → b0 ≠ 0x99 → b0 ≠ 0x69 →
      decode ss es (.data v) st =
        some ({ st with bytes := st.bytes ++ [v] }, [])) := by
  refine ⟨?_, ?_, ?_⟩
  · intro st v ss es hb hl
    simp [decode, hb, hl, putx, ann_err]
  · intro st v ss es names hb hl
    simp [decode, hb, hl, putx, ann_cmd]
  · intro st v ss es b0 rest hb h1 h2 h3 h4
    simp [decode, hb, h1, h2, h3, h4]

/-- C3 witness: unknown opcode `0x42` gives one error record; opcode
`0x0f` gives the command record; a later byte of a `0xcc` (table-listed
but layout-less) transaction emits nothing. -/
theorem first_byte_opcode_dispatch_witness :
    (decode 3 9 (.data 0x42) initState =
      some ({ initState with bytes := [0x42], ss := some 3, es := some 9 },
        [{ ss := 3, es := 9, cls := ann_err,
           texts := ["Unrecognized command: 0x42"] }])) ∧
    (decode 3 9 (.data 0x0f) initState =
      some ({ initState with bytes := [0x0f], ss := some 3, es := some 9 },
        [{ ss := 3, es := 9, cls := ann_cmd,
           texts := ["Write Scratchpad", "WR Sc"] }])) ∧
    (decode 9 12 (.data 7) ⟨[0xcc, 1], none, some 5, some 6⟩ =
      some (⟨[0xcc, 1, 7], none, some 5, some 6⟩, [])) :=
  ⟨first_byte_opcode_dispatch.1 initState 0x42 3 9 rfl rfl,
   first_byte_opcode_dispatch.2.1 initState 0x0f 3 9
     ["Write Scratchpad", "WR Sc"] rfl rfl,
   first_byte_opcode_dispatch.2.2 ⟨[0xcc, 1], none, some 5, some 6⟩ 7 9 12
     0xcc [1] rfl (by decide) (by decide) (by decide) (by decide)⟩

/-- C4: for Copy Scratchpad with Password (opcode `0x99`), the 13th DATA
byte emits exactly one record on its own interval: `succ` when the byte
is `0xaa` or `0x55`, `fail` for every other byte value, with the three
verbosity variants. -/
theorem copy_scratchpad_confirmation (st : DState) (v ss es : Nat)
    (hlen : st.bytes.length = 12) (hhead : st.bytes.head? = some 0x99)
    (_hv : v < 256) :
    decode ss es (.data v) st =
      some ({ st with bytes := st.bytes ++ [v], ss := some ss, es := some es },
        [if v = 0xaa ∨ v = 0x55 then
          { ss := ss, es := es, cls := ann_succ,
            texts := ["Operation Succeeded", "Success", "S"] }
         else
          { ss := ss, es := es, cls := ann_fail,
            texts := ["Operation Failed", "Failed", "F"] }]) := by
  cases hbs : st.bytes with
  | nil => simp [hbs] at hlen
  | cons b0 rest =>
    rw [hbs] at hhead hlen
    simp at hhead hlen
    subst hhead
    by_cases hv : v = 0xaa ∨ v = 0x55 <;>
      simp [decode, hbs, decodeCP, putx, hlen, getLast?_cons_concat, hv,
        ann_succ, ann_fail]

/-- C4 witness: byte 13 equal to `0x55` yields the success record. -/
theorem copy_scratchpad_confirmation_witness :
    decode 77 99 (.data 0x55)
        ⟨[0x99, 1, 2, 3, 4, 5, 6, 7, 8, 9, 10, 11], none, some 0, some 1⟩ =
      some (⟨[0x99, 1, 2, 3, 4, 5, 6, 7, 8, 9, 10, 11, 0x55], none,
             some 77, some 99⟩,
        [{ ss := 77, es := 99, cls := ann_succ,
           texts := ["Operation Succeeded", "Success", "S"] }]) := by
  have h := copy_scratchpad_confirmation
    ⟨[0x99, 1, 2, 3, 4, 5, 6, 7, 8, 9, 10, 11], none, some 0, some 1⟩
    0x55 77 99 rfl rfl (by norm_num)
  simpa using h

/-- C5: for opcodes `0x0f`, `0xaa` and `0x69`, the 2nd DATA byte emits
nothing, and the 3rd emits one `addr` record whose value is
`bytes[2] <<< 8 + bytes[1]` (little-endian, low byte first), spanning
from the start of the 2nd DATA event to the end of the 3rd. -/
theorem target_address_field (st : DState) (c b1 b2 s2 e2 s3 e3 : Nat)
    (hc : c = 0x0f ∨ c = 0xaa ∨ c = 0x69) (hb : st.bytes = [c]) :
    decode s2 e2 (.data b1) st =
      some ({ st with bytes := [c, b1], ss := some s2 }, []) ∧
    decode s3 e3 (.data b2) { st with bytes := [c, b1], ss := some s2 } =
      some ({ st with bytes := [c, b1, b2], ss := some s2, es := some e3 },
        [{ ss := s2, es := e3, cls := ann_addr,
           texts := ["Target address: 0x" ++ hexPad 4 ((b2 <<< 8) + b1)] }]) := by
  rcases hc with hc | hc | hc <;> subst hc <;>
    exact ⟨by simp [decode, hb, decodeWS, decodeRS, decodeRM, putx],
           by simp [decode, decodeWS, decodeRS, decodeRM, putx, ann_addr]⟩

/-- C5 witness: the Write Scratchpad example bytes `0x0f 0x10 0x20` give
target address `0x2010`. -/
theorem target_address_field_witness :
    decode 10 20 (.data 0x10) ⟨[0x0f], none, none, none⟩ =
      some (⟨[0x0f, 0x10], none, some 10, none⟩, []) ∧
    decode 20 30 (.data 0x20) ⟨[0x0f, 0x10], none, some 10, none⟩ =
      some (⟨[0x0f, 0x10, 0x20], none, some 10, some 30⟩,
        [{ ss := 10, es := 30, cls := ann_addr,
           texts := ["Target address: 0x2010"] }]) := by
  have h := target_address_field ⟨[0x0f], none, none, none⟩
    0x0f 0x10 0x20 10 20 20 30 (Or.inl rfl) rfl
  simpa using h

/-- C6: for Write Scratchpad (opcode `0x0f`), every DATA byte from the
4th on emits one `data` record listing the payload length `n - 3` and
the hex of `bytes[3:]`, spanning from the start of the 4th DATA event to
the end of the current one — a running re-emission that grows with each
byte, not a single final record. -/
theorem write_scratchpad_running_data (st : DState) (b1 b2 : Nat)
    (hb : st.bytes = [0x0f, b1, b2]) (s4 e4 v4 : Nat)
    (L : List (Nat × Nat × Nat)) :
    ∃ stf, runData st ((s4, e4, v4) :: L) =
      some (stf,
        [{ ss := s4, es := e4, cls := ann_data,
           texts := ["Data(1): " ++ hexJoin [v4]] }] :: wsExpect s4 [v4] L) := by
  have hstep : decode s4 e4 (.data v4) st =
      some ({ st with bytes := [0x0f, b1, b2, v4], ss := some s4,
                      es := some e4 },
        [{ ss := s4, es := e4, cls := ann_data,
           texts := ["Data(1): " ++ hexJoin [v4]] }]) := by
    simp [decode, hb, decodeWS, putx, ann_data, hexJoin,
      show toString (1 : Nat) = "1" from rfl]
  obtain ⟨stf, hrest⟩ := wsRunLemma s4 b1 b2 L v4 []
    { st with bytes := [0x0f, b1, b2, v4], ss := some s4, es := some e4 }
    (by simp) rfl
  exact ⟨stf, by simp [runData, hstep, hrest]⟩

/-- C6 witness: payload bytes `0xaa` then `0xbb` produce the growing
records Data(1): aa then Data(2): aa bb, both starting at the 4th
event start. -/
theorem write_scratchpad_running_data_witness :
    ∃ stf, runData ⟨[0x0f, 0x10, 0x20], none, some 10, some 30⟩
        [(30, 40, 0xaa), (40, 50, 0xbb)] =
      some (stf,
        [[{ ss := 30, es := 40, cls := ann_data, texts := ["Data(1): aa"] }],
         [{ ss := 30, es := 50, cls := ann_data,
            texts := ["Data(2): aa bb"] }]]) := by
  obtain ⟨stf, h⟩ := write_scratchpad_running_data
    ⟨[0x0f, 0x10, 0x20], none, some 10, some 30⟩ 0x10 0x20 rfl
    30 40 0xaa [(40, 50, 0xbb)]
  exact ⟨stf, by simpa using h⟩

/-- C7 (amended): for Copy Scratchpad with Password (opcode `0x99`), the
4th DATA byte emits one record listing `bytes[1:4]` as three
hex-prefixed values, spanning from the start of the 2nd DATA event to
the end of the 4th — but its class index is 0, the `data` category;
no auth-pattern category exists among the declared classes. -/
theorem copy_scratchpad_auth_pattern (st : DState)
    (b1 b2 b3 s2 e2 s3 e3 s4 e4 : Nat) (hb : st.bytes = [0x99]) :
    decode s2 e2 (.data b1) st =
      some ({ st with bytes := [0x99, b1], ss := some s2 }, []) ∧
    decode s3 e3 (.data b2) { st with bytes := [0x99, b1], ss := some s2 } =
      some ({ st with bytes := [0x99, b1, b2], ss := some s2 }, []) ∧
    decode s4 e4 (.data b3)
        { st with bytes := [0x99, b1, b2], ss := some s2 } =
      some ({ st with bytes := [0x99, b1, b2, b3], ss := some s2,
                      es := some e4 },
        [{ ss := s2, es := e4, cls := ann_data,
           texts := ["Authorization pattern (TA1, TA2, E/S): " ++
             hexJoin0x [b1, b2, b3]] }]) := by
  exact ⟨by simp [decode, hb, decodeCP, putx],
         by simp [decode, decodeCP, putx],
         by simp [decode, decodeCP, putx, ann_data, hexJoin0x]⟩

/-- C7 witness: concrete authorization pattern bytes 1, 2, 3. -/
theorem copy_scratchpad_auth_pattern_witness :
    decode 1 2 (.data 1) ⟨[0x99], none, none, none⟩ =
      some (⟨[0x99, 1], none, some 1, none⟩, []) ∧
    decode 2 3 (.data 2) ⟨[0x99, 1], none, some 1, none⟩ =
      some (⟨[0x99, 1, 2], none, some 1, none⟩, []) ∧
    decode 3 4 (.data 3) ⟨[0x99, 1, 2], none, some 1, none⟩ =
      some (⟨[0x99, 1, 2, 3], none, some 1, some 4⟩,
        [{ ss := 1, es := 4, cls := ann_data,
           texts := ["Authorization pattern (TA1, TA2, E/S): 0x01, 0x02, 0x03"] }]) := by
  have h := copy_scratchpad_auth_pattern ⟨[0x99], none, none, none⟩
    1 2 3 1 2 2 3 3 4 rfl
  simpa using h

/-- C7 counterexample: on the claimed input the emitted classes are
`cmd` then class 0, whose declared id is data; no class id
auth-pattern is declared at all, so no auth-pattern record can be
emitted. -/
theorem auth_pattern_class_is_data :
    (decodeAll initState
        [(0, 1, .data 0x99), (1, 2, .data 1), (2, 3, .data 2),
         (3, 4, .data 3)]).map (fun r => r.2.map (fun p => p.cls)) =
      some [ann_cmd, ann_data] ∧
    annSpec.get? ann_data = some ("data", "Data") ∧
    (annSpec.map Prod.fst).contains "auth-pattern" = false :=
  ⟨rfl, rfl, by decide⟩

/-- C8: a ROM event records `family_code = val &&& 0xff` and emits one
`rom` record whose most verbose text carries the DS1977-detected note
exactly when the low byte is `0x37`, and the unknown note for every
other low byte. -/
theorem rom_family_code_note (st : DState) (ss es val : Nat) :
    decode ss es (.rom val) st =
      some ({ st with bytes := [], family_code := some (val &&& 0xff),
                      ss := some ss, es := some es },
        [{ ss := ss, es := es, cls := ann_rom,
           texts :=
             [if val &&& 0xff = 0x37 then
                "ROM: 0x" ++ hexPad 16 val ++ " (" ++
                  ("family code " ++ "is 0x37, DS1977 detected") ++ ")"
              else
                "ROM: 0x" ++ hexPad 16 val ++ " (" ++
                  ("family code " ++
                    ("0x" ++ hexPad 2 (val &&& 0xff) ++ " unknown")) ++ ")",
              "ROM: 0x" ++ hexPad 16 val ++ " (" ++ "DS1977" ++ ")",
              "ROM: 0x" ++ hexPad 16 val] }]) := by
  have h37 : hexPad 2 55 = "37" := rfl
  by_cases h : val &&& 0xff = 0x37 <;>
    simp [decode, putx, h, h37, ann_rom, family]

/-- C9 (amended): the declared bits display row holds every class except
`ending`, `status` and `err`; the error row holds exactly `err`; the
`ending` and `status` classes are assigned to no row at all. -/
theorem row_grouping (i : Nat) (h : i < 12) :
    annRows.map (fun r => (r.1, r.2.2.contains i)) =
      [("bits", decide (i ≠ ann_end ∧ i ≠ ann_stat ∧ i ≠ ann_err)),
       ("err", decide (i = ann_err))] := by
  interval_cases i <;> rfl

/-- C9 witness: the `addr` class (index 5) sits in the bits row and not
in the error row. -/
theorem row_grouping_witness :
    annRows.map (fun r => (r.1, r.2.2.contains ann_addr)) =
      [("bits", true), ("err", false)] := by
  have h := row_grouping ann_addr (by norm_num [ann_addr])
  simpa using h

/-- C9 counterexample: `ending` (index 6) and `status` (index 7) are
declared classes yet belong to neither row, contradicting the claim
that every non-error class is in the bits row. -/
theorem ending_status_rowless :
    (annRows.map (fun r => r.2.2)).flatten.contains ann_end = false ∧
    (annRows.map (fun r => r.2.2)).flatten.contains ann_stat = false ∧
    annSpec.get? ann_end = some ("ending", "Ending Offset") ∧
    annSpec.get? ann_stat = some ("status", "Data Status") := by
  refine ⟨by decide, by decide, rfl, rfl⟩

/-- C10: any sequence of well-formed events is processed without fault
from the initial state: every `bytes` access is in bounds and the
emission interval attributes are always assigned before any `putx`,
even when the very first event is a DATA byte. -/
theorem decode_stream_total (L : List (Nat × Nat × Ev))
    (hwf : ∀ t ∈ L, wfTriple t) :
    (decodeAll initState L).isSome :=
  decodeAll_total L initState (Or.inl rfl)

/-- C10 witness: a stream whose very first event is a DATA byte (an
unrecognized opcode, followed by a reset and a fresh command). -/
theorem decode_stream_total_witness :
    (∀ t ∈ [((5 : Nat), (7 : Nat), Ev.data 0x42),
            (8, 9, Ev.reset true), (10, 11, Ev.data 0xaa)], wfTriple t) ∧
    (decodeAll initState
      [(5, 7, Ev.data 0x42), (8, 9, Ev.reset true),
       (10, 11, Ev.data 0xaa)]).isSome :=
  ⟨by
    intro t ht
    simp at ht
    rcases ht with h | h | h <;> subst h <;>
      exact ⟨by norm_num, by norm_num⟩,
   decode_stream_total _ (by
    intro t ht
    simp at ht
    rcases ht with h | h | h <;> subst h <;>
      exact ⟨by norm_num, by norm_num⟩)⟩

end DS1977
